import Mathlib

/-!
Shallow embedding of the crossing-detection and counting core of
`src/footfall_counter.py` (class `FootfallCounter`), together with proofs of
the specification's claims about it.

The embedded core is `FootfallCounter.update_counts` (lines 55-81 of the
source): per detection it appends the centroid to the track's history,
evicts the oldest entry when the history exceeds `TRACK_HISTORY_LENGTH`,
and — when the history has at least two samples and the track has not been
counted yet — compares the last two y-coordinates against the counting line
`int(frame_height * line_position)` and increments `entry_count` or
`exit_count` at most once per track id.

Python numbers are modelled as follows: track ids are `Nat`, centroid
coordinates are `Int` (the source casts them with `int(...)`), the line
position fraction is `ℚ`, and the counters are `Int` (Python integers,
starting at 0 and only ever incremented).
-/

/-- Module constant `TRACK_HISTORY_LENGTH = 30` (line 17 of the source). -/
def TRACK_HISTORY_LENGTH : Nat := 30

/-- Direction of a detected line crossing: `Entry` is top-to-bottom
(lines 73-76), `Exit` is bottom-to-top (lines 78-81). -/
inductive Crossing where
  | Entry : Crossing
  | Exit : Crossing
deriving DecidableEq

/-- One well-formed detection record as consumed by `update_counts`
(lines 59-61): only the `track_id` and `centroid` keys are read there. -/
structure Observation where
  track_id : Nat
  centroid : Int × Int
deriving DecidableEq

/-- The mutable state of a `FootfallCounter` object (lines 23-27):
`line_position`, the per-track history map (a `defaultdict(list)`, so every
unseen id maps to `[]`), the set of already-counted ids, and the two
counters. The YOLO model handle is I/O-only and not part of the counting
state. -/
structure CounterState where
  line_position : ℚ
  track_history : Nat → List (Int × Int)
  counted_ids : Finset Nat
  entry_count : Int
  exit_count : Int

/-- `FootfallCounter.__init__` (lines 20-27): stores the fraction and starts
with empty histories, an empty counted set and zero counters. The source
performs no validation of `line_position`. -/
def FootfallCounter.init (line_position : ℚ) : CounterState :=
  { line_position := line_position
    track_history := fun _ => []
    counted_ids := ∅
    entry_count := 0
    exit_count := 0 }

/-- Python `int(...)` applied to a real value: truncation toward zero. -/
def pyInt (q : ℚ) : Int := if 0 ≤ q then ⌊q⌋ else ⌈q⌉

/-- `counting_line_y = int(frame_height * self.line_position)` (line 57). -/
def countingLineY (frame_height : Nat) (line_position : ℚ) : Int :=
  pyInt ((frame_height : ℚ) * line_position)

/-- Lines 64-66: append the new centroid and, if the history now exceeds
`TRACK_HISTORY_LENGTH`, pop the oldest element (`pop(0)`). -/
def appendBounded (hist : List (Int × Int)) (p : Int × Int) : List (Int × Int) :=
  if TRACK_HISTORY_LENGTH < (hist ++ [p]).length then (hist ++ [p]).tail else hist ++ [p]

/-- The inline crossing check of lines 69-81, as a pure function of the
updated history and the line coordinate: requires at least two samples,
reads `prev_y = history[-2][1]` and `curr_y = history[-1][1]`, and compares
them against the line with a strict previous-side and inclusive
current-side comparison, Entry tested before Exit. -/
def detect (history : List (Int × Int)) (lineY : Int) : Option Crossing :=
  if 2 ≤ history.length then
    let prev_y := (history.getD (history.length - 2) (0, 0)).2
    let curr_y := (history.getD (history.length - 1) (0, 0)).2
    if prev_y < lineY ∧ lineY ≤ curr_y then some Crossing.Entry
    else if lineY < prev_y ∧ curr_y ≤ lineY then some Crossing.Exit
    else none
  else none

/-- The counting part of lines 69-81: if the track id is already in
`counted_ids` nothing happens (the source guards the whole block with
`track_id not in self.counted_ids`); otherwise an Entry increments
`entry_count` and an Exit increments `exit_count`, each also inserting the
id into `counted_ids`. -/
def applyCrossing (track_id : Nat) (crossing : Option Crossing) (s : CounterState) : CounterState :=
  if track_id ∈ s.counted_ids then s
  else
    match crossing with
    | some Crossing.Entry =>
        { s with entry_count := s.entry_count + 1
                 counted_ids := insert track_id s.counted_ids }
    | some Crossing.Exit =>
        { s with exit_count := s.exit_count + 1
                 counted_ids := insert track_id s.counted_ids }
    | none => s

/-- Lines 63-66: store the new centroid in the history map entry of the
observation's track id. -/
def recordHist (s : CounterState) (obs : Observation) : CounterState :=
  { s with track_history := Function.update s.track_history obs.track_id (appendBounded (s.track_history obs.track_id) obs.centroid) }

/-- The body of the `for detection in detections` loop of `update_counts`
(lines 59-81) for one observation: update the history map, then run the
crossing check on the just-updated history and count it. The source writes
the `len >= 2` test and the membership test in one guard before computing
`prev_y`/`curr_y`; here the length test lives in `detect` (which returns
`none` below two samples) and the membership test in `applyCrossing` —
both checks are pure, so the split preserves the behaviour exactly. -/
def processObs (counting_line_y : Int) (s : CounterState) (obs : Observation) : CounterState :=
  applyCrossing obs.track_id
    (detect (appendBounded (s.track_history obs.track_id) obs.centroid) counting_line_y)
    (recordHist s obs)

/-- `FootfallCounter.update_counts(self, detections, frame_height)`
(lines 55-81): compute the line coordinate once from the frame height and
fold the per-detection body over the detection list. -/
def FootfallCounter.update_counts (s : CounterState) (detections : List Observation)
    (frame_height : Nat) : CounterState :=
  List.foldl (processObs (countingLineY frame_height s.line_position)) s detections

/-- A run of the pipeline: one `update_counts` call per frame, each frame
given as its height together with that frame's detections. -/
def runFrames (s : CounterState) (frames : List (Nat × List Observation)) : CounterState :=
  List.foldl (fun s fr => FootfallCounter.update_counts s fr.2 fr.1) s frames

/-- One per-observation step of a run, tagged with the frame height it was
processed under; `runFrames` is the fold of this over the flattened frames. -/
def processStep (s : CounterState) (st : Nat × Observation) : CounterState :=
  processObs (countingLineY st.1 s.line_position) s st.2

/-- Flatten a frame sequence into the per-observation step sequence, in
processing order. -/
def flattenFrames (frames : List (Nat × List Observation)) : List (Nat × Observation) :=
  List.foldr (fun fr acc => fr.2.map (fun o => (fr.1, o)) ++ acc) [] frames

/-- Combined total `entry_count + exit_count`. -/
def totalCount (s : CounterState) : Int := s.entry_count + s.exit_count

/-- `occupancy = entry_count - exit_count` (printed by the source as
`Current`/`Total`). -/
def occupancy (s : CounterState) : Int := s.entry_count - s.exit_count

/-- Number of steps in a step sequence at which the given track id
contributes an increment to `entry_count + exit_count`. -/
def contribCount (t : Nat) (s : CounterState) : List (Nat × Observation) → Nat
  | [] => 0
  | st :: rest =>
      (if st.2.track_id = t ∧ totalCount s < totalCount (processStep s st) then 1 else 0)
      + contribCount t (processStep s st) rest

/-- The Python exception raised by a dict lookup on a missing key. -/
inductive PyError where
  | keyError : PyError
deriving DecidableEq

/-- A raw detection record as handed over by the collaborator: a dict that
may lack the `track_id` or `centroid` key. -/
structure RawDetection where
  track_id : Option Nat
  centroid : Option (Int × Int)

/-- The `update_counts` loop over raw records, with Python's exception
semantics: each record's `track_id` and `centroid` are read (lines 60-61)
before any state is touched for that record; a missing key raises
`KeyError`, which aborts the loop — the state mutated so far persists on
the object, and the remaining records are never processed. -/
def updateRawGo (lineY : Int) (s : CounterState) :
    List RawDetection → CounterState × Option PyError
  | [] => (s, none)
  | d :: rest =>
      match d.track_id, d.centroid with
      | some t, some c => updateRawGo lineY (processObs lineY s { track_id := t, centroid := c }) rest
      | _, _ => (s, some PyError.keyError)

/-- `update_counts` on raw records: line coordinate computed once
(line 57), then the loop with exception semantics. Returns the state of
the object after the call together with the exception, if one escaped. -/
def update_counts_raw (s : CounterState) (detections : List RawDetection)
    (frame_height : Nat) : CounterState × Option PyError :=
  updateRawGo (countingLineY frame_height s.line_position) s detections

/-! ### Basic step lemmas -/

theorem applyCrossing_track_history (t : Nat) (c : Option Crossing) (s : CounterState) :
    (applyCrossing t c s).track_history = s.track_history := by
  by_cases h : t ∈ s.counted_ids
  · simp [applyCrossing, h]
  · rcases c with _ | cr
    · simp [applyCrossing, h]
    · cases cr <;> simp [applyCrossing, h]

theorem applyCrossing_line_position (t : Nat) (c : Option Crossing) (s : CounterState) :
    (applyCrossing t c s).line_position = s.line_position := by
  by_cases h : t ∈ s.counted_ids
  · simp [applyCrossing, h]
  · rcases c with _ | cr
    · simp [applyCrossing, h]
    · cases cr <;> simp [applyCrossing, h]

theorem applyCrossing_counted_mono (t : Nat) (c : Option Crossing) (s : CounterState) :
    s.counted_ids ⊆ (applyCrossing t c s).counted_ids := by
  by_cases h : t ∈ s.counted_ids
  · simp [applyCrossing, h]
  · rcases c with _ | cr
    · simp [applyCrossing, h]
    · cases cr <;> simp [applyCrossing, h, Finset.subset_insert]

theorem applyCrossing_entry_le (t : Nat) (c : Option Crossing) (s : CounterState) :
    s.entry_count ≤ (applyCrossing t c s).entry_count := by
  by_cases h : t ∈ s.counted_ids
  · simp [applyCrossing, h]
  · rcases c with _ | cr
    · simp [applyCrossing, h]
    · cases cr <;> simp [applyCrossing, h]

theorem applyCrossing_exit_le (t : Nat) (c : Option Crossing) (s : CounterState) :
    s.exit_count ≤ (applyCrossing t c s).exit_count := by
  by_cases h : t ∈ s.counted_ids
  · simp [applyCrossing, h]
  · rcases c with _ | cr
    · simp [applyCrossing, h]
    · cases cr <;> simp [applyCrossing, h]

theorem applyCrossing_mem_noop (t : Nat) (c : Option Crossing) (s : CounterState)
    (h : t ∈ s.counted_ids) : applyCrossing t c s = s := by
  simp [applyCrossing, h]

theorem applyCrossing_total_lt (t : Nat) (c : Option Crossing) (s : CounterState)
    (h : totalCount s < totalCount (applyCrossing t c s)) :
    t ∉ s.counted_ids ∧ (applyCrossing t c s).counted_ids = insert t s.counted_ids ∧
      totalCount (applyCrossing t c s) = totalCount s + 1 := by
  by_cases hm : t ∈ s.counted_ids
  · rw [applyCrossing_mem_noop t c s hm] at h
    exact absurd h (lt_irrefl _)
  · refine ⟨hm, ?_⟩
    rcases c with _ | cr
    · simp [applyCrossing, hm, totalCount] at h
    · cases cr <;> simp [applyCrossing, hm, totalCount] at * <;> omega

theorem recordHist_counted (s : CounterState) (o : Observation) :
    (recordHist s o).counted_ids = s.counted_ids := rfl

theorem processObs_line_position (l : Int) (s : CounterState) (o : Observation) :
    (processObs l s o).line_position = s.line_position := by
  unfold processObs
  rw [applyCrossing_line_position]
  rfl

theorem processObs_track_history (l : Int) (s : CounterState) (o : Observation) :
    (processObs l s o).track_history
      = Function.update s.track_history o.track_id
          (appendBounded (s.track_history o.track_id) o.centroid) := by
  unfold processObs
  rw [applyCrossing_track_history]
  rfl

theorem processObs_counted_mono (l : Int) (s : CounterState) (o : Observation) :
    s.counted_ids ⊆ (processObs l s o).counted_ids := by
  unfold processObs
  exact applyCrossing_counted_mono o.track_id _ (recordHist s o)

theorem processObs_entry_le (l : Int) (s : CounterState) (o : Observation) :
    s.entry_count ≤ (processObs l s o).entry_count := by
  unfold processObs
  exact applyCrossing_entry_le o.track_id _ (recordHist s o)

theorem processObs_exit_le (l : Int) (s : CounterState) (o : Observation) :
    s.exit_count ≤ (processObs l s o).exit_count := by
  unfold processObs
  exact applyCrossing_exit_le o.track_id _ (recordHist s o)

theorem processObs_counted_noop (l : Int) (s : CounterState) (o : Observation)
    (h : o.track_id ∈ s.counted_ids) :
    (processObs l s o).entry_count = s.entry_count
      ∧ (processObs l s o).exit_count = s.exit_count
      ∧ (processObs l s o).counted_ids = s.counted_ids := by
  unfold processObs
  rw [applyCrossing_mem_noop o.track_id
    (detect (appendBounded (s.track_history o.track_id) o.centroid) l) (recordHist s o) h]
  exact ⟨rfl, rfl, rfl⟩

theorem processObs_total_lt (l : Int) (s : CounterState) (o : Observation)
    (h : totalCount s < totalCount (processObs l s o)) :
    o.track_id ∉ s.counted_ids ∧ (processObs l s o).counted_ids = insert o.track_id s.counted_ids ∧
      totalCount (processObs l s o) = totalCount s + 1 := by
  unfold processObs at h ⊢
  exact applyCrossing_total_lt o.track_id _ (recordHist s o) h

/-! ### Preservation of invariants along a run -/

theorem foldl_processObs_preserve (P : CounterState → Prop)
    (hP : ∀ (l : Int) (s : CounterState) (o : Observation), P s → P (processObs l s o)) (l : Int) :
    ∀ (dets : List Observation) (s : CounterState), P s → P (List.foldl (processObs l) s dets)
  | [], _, h => h
  | o :: rest, s, h =>
      foldl_processObs_preserve P hP l rest (processObs l s o) (hP l s o h)

theorem update_counts_preserve (P : CounterState → Prop)
    (hP : ∀ (l : Int) (s : CounterState) (o : Observation), P s → P (processObs l s o))
    (dets : List Observation) (fh : Nat) (s : CounterState) (h : P s) :
    P (FootfallCounter.update_counts s dets fh) :=
  foldl_processObs_preserve P hP _ dets s h

theorem runFrames_preserve (P : CounterState → Prop)
    (hP : ∀ (l : Int) (s : CounterState) (o : Observation), P s → P (processObs l s o)) :
    ∀ (frames : List (Nat × List Observation)) (s : CounterState), P s → P (runFrames s frames)
  | [], _, h => h
  | fr :: rest, s, h =>
      runFrames_preserve P hP rest (FootfallCounter.update_counts s fr.2 fr.1)
        (update_counts_preserve P hP fr.2 fr.1 s h)

theorem runFrames_counts_le (s : CounterState) (frames : List (Nat × List Observation)) :
    s.entry_count ≤ (runFrames s frames).entry_count
      ∧ s.exit_count ≤ (runFrames s frames).exit_count :=
  runFrames_preserve (fun x => s.entry_count ≤ x.entry_count ∧ s.exit_count ≤ x.exit_count)
    (fun l s' o h => ⟨le_trans h.1 (processObs_entry_le l s' o),
      le_trans h.2 (processObs_exit_le l s' o)⟩)
    frames s ⟨le_refl _, le_refl _⟩

theorem applyCrossing_card (t : Nat) (c : Option Crossing) (s : CounterState)
    (h : s.entry_count + s.exit_count = (s.counted_ids.card : Int)) :
    (applyCrossing t c s).entry_count + (applyCrossing t c s).exit_count
      = ((applyCrossing t c s).counted_ids.card : Int) := by
  by_cases hm : t ∈ s.counted_ids
  · simpa [applyCrossing, hm] using h
  · rcases c with _ | cr
    · simpa [applyCrossing, hm] using h
    · cases cr <;> simp [applyCrossing, hm, Finset.card_insert_of_not_mem hm] <;> omega

theorem processObs_card (l : Int) (s : CounterState) (o : Observation)
    (h : s.entry_count + s.exit_count = (s.counted_ids.card : Int)) :
    (processObs l s o).entry_count + (processObs l s o).exit_count
      = ((processObs l s o).counted_ids.card : Int) := by
  unfold processObs
  exact applyCrossing_card o.track_id _ (recordHist s o) h

/-! ### History bounding -/

theorem appendBounded_length_le (hist : List (Int × Int)) (p : Int × Int)
    (h : hist.length ≤ TRACK_HISTORY_LENGTH) :
    (appendBounded hist p).length ≤ TRACK_HISTORY_LENGTH := by
  unfold appendBounded
  split
  · simp only [List.length_tail, List.length_append, List.length_singleton, List.length_nil]
    omega
  · rename_i hc
    simp only [List.length_append, List.length_singleton, List.length_nil] at hc ⊢
    omega

theorem processObs_histBounded (l : Int) (s : CounterState) (o : Observation)
    (h : ∀ t, (s.track_history t).length ≤ TRACK_HISTORY_LENGTH) :
    ∀ t, ((processObs l s o).track_history t).length ≤ TRACK_HISTORY_LENGTH := by
  intro t
  rw [processObs_track_history]
  by_cases ht : t = o.track_id
  · subst ht
    rw [Function.update_same]
    exact appendBounded_length_le _ _ (h o.track_id)
  · rw [Function.update_noteq ht]
    exact h t

theorem appendBounded_of_lt (hist : List (Int × Int)) (p : Int × Int)
    (h : hist.length < TRACK_HISTORY_LENGTH) : appendBounded hist p = hist ++ [p] := by
  unfold appendBounded
  rw [if_neg]
  simp only [List.length_append, List.length_singleton, List.length_nil]
  omega

theorem appendBounded_of_eq (a : Int × Int) (hist : List (Int × Int)) (p : Int × Int)
    (h : (a :: hist).length = TRACK_HISTORY_LENGTH) :
    appendBounded (a :: hist) p = hist ++ [p] := by
  unfold appendBounded
  rw [if_pos]
  · rfl
  · simp only [List.length_append, List.length_cons, List.length_singleton, List.length_nil] at h ⊢
    omega

theorem foldl_appendBounded_drop :
    ∀ (ps hist : List (Int × Int)), hist.length ≤ TRACK_HISTORY_LENGTH →
      List.foldl appendBounded hist ps
        = (hist ++ ps).drop (hist.length + ps.length - TRACK_HISTORY_LENGTH) := by
  intro ps
  induction ps with
  | nil =>
    intro hist h
    simp only [List.foldl_nil, List.length_nil, List.append_nil, Nat.add_zero,
      Nat.sub_eq_zero_of_le h, List.drop_zero]
  | cons p ps ih =>
    intro hist h
    rw [List.foldl_cons]
    by_cases hlt : hist.length < TRACK_HISTORY_LENGTH
    · rw [appendBounded_of_lt hist p hlt,
        ih (hist ++ [p]) (by simp only [List.length_append, List.length_singleton, List.length_nil]; omega)]
      have e1 : (hist ++ [p]).length + ps.length - TRACK_HISTORY_LENGTH
          = hist.length + (p :: ps).length - TRACK_HISTORY_LENGTH := by
        simp only [List.length_append, List.length_singleton, List.length_nil, List.length_cons]
        omega
      rw [List.append_assoc, List.singleton_append, e1]
    · have hEq : hist.length = TRACK_HISTORY_LENGTH := le_antisymm h (not_lt.mp hlt)
      rcases hist with _ | ⟨a, hist'⟩
      · simp [TRACK_HISTORY_LENGTH] at hEq
      · rw [appendBounded_of_eq a hist' p hEq,
          ih (hist' ++ [p]) (by
            simp only [List.length_append, List.length_singleton, List.length_nil]
            simp only [List.length_cons] at hEq
            omega)]
        simp only [List.length_cons] at hEq
        have e1 : (hist' ++ [p]).length + ps.length - TRACK_HISTORY_LENGTH = ps.length := by
          simp only [List.length_append, List.length_singleton, List.length_nil]
          omega
        have e2 : (a :: hist').length + (p :: ps).length - TRACK_HISTORY_LENGTH
            = ps.length + 1 := by
          simp only [List.length_cons]
          omega
        rw [e1, e2, List.append_assoc, List.singleton_append, List.cons_append,
          List.drop_succ_cons]

theorem update_counts_single (s : CounterState) (o : Observation) (fh : Nat) :
    FootfallCounter.update_counts s [o] fh
      = processObs (countingLineY fh s.line_position) s o := rfl

theorem runFrames_single_track (fh : Nat) (t : Nat) :
    ∀ (ps : List (Int × Int)) (s : CounterState),
      (runFrames s (ps.map fun p => (fh, [⟨t, p⟩]))).track_history t
        = List.foldl appendBounded (s.track_history t) ps := by
  intro ps
  induction ps with
  | nil => intro s; rfl
  | cons p ps ih =>
    intro s
    rw [List.map_cons, List.foldl_cons]
    show (runFrames (FootfallCounter.update_counts s [⟨t, p⟩] fh) (ps.map fun p => (fh, [⟨t, p⟩]))).track_history t = _
    rw [ih, update_counts_single]
    have : ((processObs (countingLineY fh s.line_position) s ⟨t, p⟩).track_history t)
        = appendBounded (s.track_history t) p := by
      rw [processObs_track_history]
      exact Function.update_same _ _ _
    rw [this]

/-! ### At-most-once counting -/

theorem processStep_eq (s : CounterState) (st : Nat × Observation) :
    processStep s st = processObs (countingLineY st.1 s.line_position) s st.2 := rfl

theorem contribCount_eq_zero_of_mem :
    ∀ (steps : List (Nat × Observation)) (s : CounterState) (t : Nat),
      t ∈ s.counted_ids → contribCount t s steps = 0 := by
  intro steps
  induction steps with
  | nil => intro s t _; rfl
  | cons st rest ih =>
    intro s t ht
    simp only [contribCount]
    rw [if_neg, ih (processStep s st) t (processObs_counted_mono _ _ _ ht)]
    rintro ⟨heq, hlt⟩
    rw [processStep_eq] at hlt
    exact (processObs_total_lt _ _ _ hlt).1 (heq ▸ ht)

theorem contribCount_le_one :
    ∀ (steps : List (Nat × Observation)) (s : CounterState) (t : Nat),
      contribCount t s steps ≤ 1 := by
  intro steps
  induction steps with
  | nil => intro s t; exact Nat.zero_le 1
  | cons st rest ih =>
    intro s t
    simp only [contribCount]
    by_cases hc : st.2.track_id = t ∧ totalCount s < totalCount (processStep s st)
    · rw [if_pos hc, contribCount_eq_zero_of_mem rest (processStep s st) t ?_]
      · rw [processStep_eq, (processObs_total_lt _ _ _ hc.2).2.1]
        exact hc.1 ▸ Finset.mem_insert_self _ _
    · rw [if_neg hc]
      simpa using ih (processStep s st) t

/-! ### Flattening a frame sequence into observation steps -/

theorem update_counts_eq_steps :
    ∀ (dets : List Observation) (fh : Nat) (s : CounterState),
      FootfallCounter.update_counts s dets fh
        = List.foldl processStep s (dets.map fun o => (fh, o)) := by
  intro dets
  induction dets with
  | nil => intro fh s; rfl
  | cons o rest ih =>
    intro fh s
    show List.foldl (processObs (countingLineY fh s.line_position))
        (processObs (countingLineY fh s.line_position) s o) rest
      = List.foldl processStep (processObs (countingLineY fh s.line_position) s o)
          (rest.map fun o => (fh, o))
    rw [← ih fh (processObs (countingLineY fh s.line_position) s o)]
    unfold FootfallCounter.update_counts
    rw [processObs_line_position]

theorem runFrames_eq_steps :
    ∀ (frames : List (Nat × List Observation)) (s : CounterState),
      runFrames s frames = List.foldl processStep s (flattenFrames frames) := by
  intro frames
  induction frames with
  | nil => intro s; rfl
  | cons fr rest ih =>
    intro s
    show runFrames (FootfallCounter.update_counts s fr.2 fr.1) rest
      = List.foldl processStep s ((fr.2.map fun o => (fr.1, o)) ++ flattenFrames rest)
    rw [List.foldl_append, ih, update_counts_eq_steps]

/-! ### Reading the last two history entries -/

theorem getD_penultimate (pre : List (Int × Int)) (p c d : Int × Int) :
    (pre ++ [p, c]).getD pre.length d = p := by
  induction pre with
  | nil => rfl
  | cons a l ih => simpa using ih

theorem getD_last (pre : List (Int × Int)) (p c d : Int × Int) :
    (pre ++ [p, c]).getD (pre.length + 1) d = c := by
  induction pre with
  | nil => rfl
  | cons a l ih => simpa using ih

theorem detect_two (pre : List (Int × Int)) (prevP currP : Int × Int) (lineY : Int) :
    detect (pre ++ [prevP, currP]) lineY
      = (if prevP.2 < lineY ∧ lineY ≤ currP.2 then some Crossing.Entry
         else if lineY < prevP.2 ∧ currP.2 ≤ lineY then some Crossing.Exit
         else none) := by
  have h2 : 2 ≤ (pre ++ [prevP, currP]).length := by simp
  have e1 : (pre ++ [prevP, currP]).length - 2 = pre.length := by simp
  have e2 : (pre ++ [prevP, currP]).length - 1 = pre.length + 1 := by simp
  simp only [detect, h2, if_true, e1, e2, getD_penultimate, getD_last]

/-- Claim C1: for every track id and every frame sequence fed to the
pipeline from the initial state, the number of steps at which that track id
contributes an increment to `entry_count + exit_count` is at most 1 (the
run is the fold of `processStep` over the flattened frames); moreover,
once a track id is in `counted_ids`, processing any further observation of
it leaves `entry_count`, `exit_count` and `counted_ids` unchanged. -/
theorem at_most_once_per_track (lp : ℚ) (t : Nat) (frames : List (Nat × List Observation)) :
    contribCount t (FootfallCounter.init lp) (flattenFrames frames) ≤ 1
    ∧ runFrames (FootfallCounter.init lp) frames
        = List.foldl processStep (FootfallCounter.init lp) (flattenFrames frames)
    ∧ ∀ (s : CounterState) (st : Nat × Observation), st.2.track_id ∈ s.counted_ids →
        (processStep s st).entry_count = s.entry_count
        ∧ (processStep s st).exit_count = s.exit_count
        ∧ (processStep s st).counted_ids = s.counted_ids :=
  ⟨contribCount_le_one _ _ _, runFrames_eq_steps frames _,
    fun s st h => processObs_counted_noop _ s st.2 h⟩

/-- A concrete state whose counted set already holds track id 1, used to
witness the already-counted case of `at_most_once_per_track`. -/
def countedStateOne : CounterState :=
  { line_position := 1/2
    track_history := fun _ => []
    counted_ids := {1}
    entry_count := 1
    exit_count := 0 }

theorem at_most_once_per_track_witness :
    contribCount 1 (FootfallCounter.init (1/2))
        (flattenFrames [(100, [⟨1, (0, 40)⟩]), (100, [⟨1, (0, 60)⟩]), (100, [⟨1, (0, 30)⟩])]) ≤ 1
    ∧ ((processStep countedStateOne (100, ⟨1, (0, 30)⟩)).entry_count
          = countedStateOne.entry_count
        ∧ (processStep countedStateOne (100, ⟨1, (0, 30)⟩)).exit_count
          = countedStateOne.exit_count
        ∧ (processStep countedStateOne (100, ⟨1, (0, 30)⟩)).counted_ids
          = countedStateOne.counted_ids) :=
  ⟨(at_most_once_per_track (1/2) 1 _).1,
    (at_most_once_per_track (1/2) 1 []).2.2 countedStateOne (100, ⟨1, (0, 30)⟩) (by decide)⟩

/-- Claim C2: crossing detection, for any track history and line
coordinate: a history of fewer than two positions yields `none`; otherwise,
writing the history as `pre ++ [prevP, currP]` (so `prevP` is the
second-to-last and `currP` the last position), the result is `Entry` iff
`prevP.y < lineY ∧ currP.y ≥ lineY`, `Exit` iff
`prevP.y > lineY ∧ currP.y ≤ lineY`, and `none` otherwise. -/
theorem detect_characterization (history : List (Int × Int)) (lineY : Int) :
    (history.length < 2 → detect history lineY = none)
    ∧ ∀ (pre : List (Int × Int)) (prevP currP : Int × Int), history = pre ++ [prevP, currP] →
        ((detect history lineY = some Crossing.Entry ↔ prevP.2 < lineY ∧ lineY ≤ currP.2)
        ∧ (detect history lineY = some Crossing.Exit ↔ lineY < prevP.2 ∧ currP.2 ≤ lineY)
        ∧ (detect history lineY = none ↔
            ¬(prevP.2 < lineY ∧ lineY ≤ currP.2) ∧ ¬(lineY < prevP.2 ∧ currP.2 ≤ lineY))) := by
  constructor
  · intro h
    unfold detect
    rw [if_neg (by omega)]
  · intro pre prevP currP hEq
    subst hEq
    rw [detect_two]
    by_cases hA : prevP.2 < lineY ∧ lineY ≤ currP.2
    · rw [if_pos hA]
      refine ⟨⟨fun _ => hA, fun _ => rfl⟩, ⟨fun h => by simp at h, fun hB => by exfalso; omega⟩,
        ⟨fun h => by simp at h, fun h => absurd hA h.1⟩⟩
    · by_cases hB : lineY < prevP.2 ∧ currP.2 ≤ lineY
      · rw [if_neg hA, if_pos hB]
        refine ⟨⟨fun h => by simp at h, fun h => absurd h hA⟩, ⟨fun _ => hB, fun _ => rfl⟩,
          ⟨fun h => by simp at h, fun h => absurd hB h.2⟩⟩
      · rw [if_neg hA, if_neg hB]
        refine ⟨⟨fun h => by simp at h, fun h => absurd h hA⟩,
          ⟨fun h => by simp at h, fun h => absurd h hB⟩, ⟨fun _ => ⟨hA, hB⟩, fun _ => rfl⟩⟩

theorem detect_characterization_witness :
    detect [(0, 40), (0, 50)] 50 = some Crossing.Entry :=
  ((detect_characterization [(0, 40), (0, 50)] 50).2 [] (0, 40) (0, 50) rfl).1.mpr (by decide)

unseal Rat.mul Rat.inv in
/-- Claim C3: exact-line tie-break. With `lineY = 50` (frame height 100,
fraction 1/2) and a not-yet-counted track, consecutive y-positions 40 then
50 produce an Entry (`entry_count` becomes 1, `exit_count` stays 0), while
consecutive y-positions 50 then 50 produce no crossing (both counters stay
0). -/
theorem tie_break_concrete :
    countingLineY 100 (1/2) = 50
    ∧ detect [(0, 40), (0, 50)] 50 = some Crossing.Entry
    ∧ detect [(0, 50), (0, 50)] 50 = none
    ∧ (runFrames (FootfallCounter.init (1/2))
        [(100, [⟨1, (0, 40)⟩]), (100, [⟨1, (0, 50)⟩])]).entry_count = 1
    ∧ (runFrames (FootfallCounter.init (1/2))
        [(100, [⟨1, (0, 40)⟩]), (100, [⟨1, (0, 50)⟩])]).exit_count = 0
    ∧ (runFrames (FootfallCounter.init (1/2))
        [(100, [⟨2, (0, 50)⟩]), (100, [⟨2, (0, 50)⟩])]).entry_count = 0
    ∧ (runFrames (FootfallCounter.init (1/2))
        [(100, [⟨2, (0, 50)⟩]), (100, [⟨2, (0, 50)⟩])]).exit_count = 0 := by
  decide

/-- Claim C4: for every track id, every reachable history has length at
most `TRACK_HISTORY_LENGTH` (30); and a track that is fed
`TRACK_HISTORY_LENGTH + 5` positions, one per frame, ends with a history
that is exactly the most recent 30 positions in append order (the oldest 5
evicted first), hence of length exactly 30. -/
theorem history_bounded (lp : ℚ) (frames : List (Nat × List Observation)) (t : Nat) :
    (∀ u, ((runFrames (FootfallCounter.init lp) frames).track_history u).length
        ≤ TRACK_HISTORY_LENGTH)
    ∧ ∀ (fh : Nat) (ps : List (Int × Int)), ps.length = TRACK_HISTORY_LENGTH + 5 →
        (runFrames (FootfallCounter.init lp) (ps.map fun p => (fh, [⟨t, p⟩]))).track_history t
            = ps.drop 5
        ∧ ((runFrames (FootfallCounter.init lp)
              (ps.map fun p => (fh, [⟨t, p⟩]))).track_history t).length
            = TRACK_HISTORY_LENGTH := by
  constructor
  · exact runFrames_preserve
      (fun x => ∀ u, (x.track_history u).length ≤ TRACK_HISTORY_LENGTH)
      processObs_histBounded frames _ (fun u => by simp [FootfallCounter.init])
  · intro fh ps hps
    have h1 : (runFrames (FootfallCounter.init lp)
        (ps.map fun p => (fh, [⟨t, p⟩]))).track_history t = ps.drop 5 := by
      rw [runFrames_single_track]
      show List.foldl appendBounded [] ps = ps.drop 5
      rw [foldl_appendBounded_drop ps [] (by simp [TRACK_HISTORY_LENGTH])]
      have e : ([] : List (Int × Int)).length + ps.length - TRACK_HISTORY_LENGTH = 5 := by
        simp only [List.length_nil]
        omega
      rw [e, List.nil_append]
    refine ⟨h1, ?_⟩
    rw [h1, List.length_drop, hps]
    omega

/-- The 35 positions fed to one track in the witness of `history_bounded`. -/
def ps35 : List (Int × Int) := (List.range 35).map (fun i => ((0 : Int), (i : Int)))

theorem history_bounded_witness :
    (runFrames (FootfallCounter.init (1/2)) (ps35.map fun p => (100, [⟨3, p⟩]))).track_history 3
        = ps35.drop 5
    ∧ ((runFrames (FootfallCounter.init (1/2))
          (ps35.map fun p => (100, [⟨3, p⟩]))).track_history 3).length
        = TRACK_HISTORY_LENGTH :=
  (history_bounded (1/2) [] 3).2 100 ps35 (by decide)

/-- Claim C5: `entry_count` and `exit_count` never decrease under any run
from any state, and from the initial state they are non-negative after any
run. -/
theorem counts_monotone (s : CounterState) (lp : ℚ)
    (frames frames2 : List (Nat × List Observation)) :
    (s.entry_count ≤ (runFrames s frames).entry_count
      ∧ s.exit_count ≤ (runFrames s frames).exit_count)
    ∧ (0 ≤ (runFrames (FootfallCounter.init lp) frames2).entry_count
      ∧ 0 ≤ (runFrames (FootfallCounter.init lp) frames2).exit_count) :=
  ⟨runFrames_counts_le s frames,
    (runFrames_counts_le (FootfallCounter.init lp) frames2).1,
    (runFrames_counts_le (FootfallCounter.init lp) frames2).2⟩

unseal Rat.mul Rat.inv in
/-- Claim C6: end-to-end scenario. Capacity is 30 and `lineY = 100`
(frame height 200, fraction 1/2); track 7 observed at y = 20, 50, 90, 110,
130 over five frames fires exactly one Entry, on the 90-to-110 pair
(counters are 0/0 after three frames, 1/0 after the fourth and fifth);
crossing back upward afterwards (130 then 80) changes neither counter, so
occupancy stays 1. -/
theorem end_to_end_scenario :
    TRACK_HISTORY_LENGTH = 30
    ∧ countingLineY 200 (1/2) = 100
    ∧ (runFrames (FootfallCounter.init (1/2))
        [(200, [⟨7, (0, 20)⟩]), (200, [⟨7, (0, 50)⟩]), (200, [⟨7, (0, 90)⟩])]).entry_count = 0
    ∧ (runFrames (FootfallCounter.init (1/2))
        [(200, [⟨7, (0, 20)⟩]), (200, [⟨7, (0, 50)⟩]), (200, [⟨7, (0, 90)⟩])]).exit_count = 0
    ∧ (runFrames (FootfallCounter.init (1/2))
        [(200, [⟨7, (0, 20)⟩]), (200, [⟨7, (0, 50)⟩]), (200, [⟨7, (0, 90)⟩]),
          (200, [⟨7, (0, 110)⟩])]).entry_count = 1
    ∧ (runFrames (FootfallCounter.init (1/2))
        [(200, [⟨7, (0, 20)⟩]), (200, [⟨7, (0, 50)⟩]), (200, [⟨7, (0, 90)⟩]),
          (200, [⟨7, (0, 110)⟩])]).exit_count = 0
    ∧ (runFrames (FootfallCounter.init (1/2))
        [(200, [⟨7, (0, 20)⟩]), (200, [⟨7, (0, 50)⟩]), (200, [⟨7, (0, 90)⟩]),
          (200, [⟨7, (0, 110)⟩]), (200, [⟨7, (0, 130)⟩])]).entry_count = 1
    ∧ (runFrames (FootfallCounter.init (1/2))
        [(200, [⟨7, (0, 20)⟩]), (200, [⟨7, (0, 50)⟩]), (200, [⟨7, (0, 90)⟩]),
          (200, [⟨7, (0, 110)⟩]), (200, [⟨7, (0, 130)⟩])]).exit_count = 0
    ∧ (runFrames (FootfallCounter.init (1/2))
        [(200, [⟨7, (0, 20)⟩]), (200, [⟨7, (0, 50)⟩]), (200, [⟨7, (0, 90)⟩]),
          (200, [⟨7, (0, 110)⟩]), (200, [⟨7, (0, 130)⟩]), (200, [⟨7, (0, 80)⟩])]).entry_count = 1
    ∧ (runFrames (FootfallCounter.init (1/2))
        [(200, [⟨7, (0, 20)⟩]), (200, [⟨7, (0, 50)⟩]), (200, [⟨7, (0, 90)⟩]),
          (200, [⟨7, (0, 110)⟩]), (200, [⟨7, (0, 130)⟩]), (200, [⟨7, (0, 80)⟩])]).exit_count = 0
    ∧ occupancy (runFrames (FootfallCounter.init (1/2))
        [(200, [⟨7, (0, 20)⟩]), (200, [⟨7, (0, 50)⟩]), (200, [⟨7, (0, 90)⟩]),
          (200, [⟨7, (0, 110)⟩]), (200, [⟨7, (0, 130)⟩]), (200, [⟨7, (0, 80)⟩])]) = 1 := by
  decide

/-- Claim C10: both counters start at 0 with an empty counted set, after
any run from the initial state `entry_count + exit_count` equals the
cardinality of `counted_ids`, and every step that increases the combined
total inserts the step's previously-absent track id into `counted_ids`
while increasing the total by exactly 1. -/
theorem counted_card_invariant (lp : ℚ) (frames : List (Nat × List Observation)) :
    (FootfallCounter.init lp).entry_count = 0
    ∧ (FootfallCounter.init lp).exit_count = 0
    ∧ (FootfallCounter.init lp).counted_ids = ∅
    ∧ (runFrames (FootfallCounter.init lp) frames).entry_count
        + (runFrames (FootfallCounter.init lp) frames).exit_count
        = ((runFrames (FootfallCounter.init lp) frames).counted_ids.card : Int)
    ∧ ∀ (s : CounterState) (st : Nat × Observation),
        totalCount s < totalCount (processStep s st) →
          st.2.track_id ∉ s.counted_ids
          ∧ (processStep s st).counted_ids = insert st.2.track_id s.counted_ids
          ∧ totalCount (processStep s st) = totalCount s + 1 := by
  refine ⟨rfl, rfl, rfl, ?_, fun s st h => processObs_total_lt _ s st.2 h⟩
  exact runFrames_preserve (fun x => x.entry_count + x.exit_count = (x.counted_ids.card : Int))
    processObs_card frames _ (by simp [FootfallCounter.init])

/-- A concrete state in which track 1 has one recorded position above the
line and has not been counted, used to witness `counted_card_invariant`. -/
def preCrossState : CounterState :=
  runFrames (FootfallCounter.init (1/2)) [(100, [⟨1, (0, 40)⟩])]

unseal Rat.mul Rat.inv in
theorem counted_card_invariant_witness :
    1 ∉ preCrossState.counted_ids
    ∧ (processStep preCrossState (100, ⟨1, (0, 60)⟩)).counted_ids
        = insert 1 preCrossState.counted_ids
    ∧ totalCount (processStep preCrossState (100, ⟨1, (0, 60)⟩))
        = totalCount preCrossState + 1 :=
  (counted_card_invariant (1/2) []).2.2.2.2 preCrossState (100, ⟨1, (0, 60)⟩) (by decide)

unseal Rat.mul Rat.inv in
/-- Counterexample to claim C7: at frame height 103 with the default
fraction 1/2 the code computes `int(103 * 0.5) = 51`, while rounding
`0.5 * 103 = 51.5` gives 52 — the line coordinate is not
`round(f * frameHeight)`. -/
theorem line_round_counterexample :
    countingLineY 103 (1/2) = 51
    ∧ round ((1/2 : ℚ) * 103) = 52
    ∧ countingLineY 103 (1/2) ≠ round ((1/2 : ℚ) * 103) := by
  have h1 : countingLineY 103 (1/2) = 51 := by decide
  have h2 : round ((1/2 : ℚ) * 103) = 52 := by norm_num [round_eq]
  refine ⟨h1, h2, ?_⟩
  rw [h1, h2]
  decide

/-- Claim C7, amended: the line coordinate used for detection is
`int(frame_height * line_position)`, i.e. truncation toward zero, which for
a non-negative fraction equals the floor of the product (not its rounding);
it is recomputed inside every `update_counts` call from the frame height
passed for that frame, and the stored fraction is never modified by a run. -/
theorem line_uses_truncation (fh : Nat) (f : ℚ) (s : CounterState)
    (dets : List Observation) (frames : List (Nat × List Observation)) :
    (s.line_position = f →
      FootfallCounter.update_counts s dets fh
        = List.foldl (processObs (pyInt ((fh : ℚ) * f))) s dets)
    ∧ (0 ≤ f → countingLineY fh f = ⌊(fh : ℚ) * f⌋)
    ∧ (runFrames s frames).line_position = s.line_position := by
  refine ⟨?_, ?_, ?_⟩
  · intro h
    unfold FootfallCounter.update_counts countingLineY
    rw [h]
  · intro hf
    unfold countingLineY pyInt
    rw [if_pos (mul_nonneg (Nat.cast_nonneg fh) hf)]
  · exact runFrames_preserve (fun x => x.line_position = s.line_position)
      (fun l s' o h => by
        show (processObs l s' o).line_position = s.line_position
        rw [processObs_line_position]
        exact h) frames s rfl

unseal Rat.mul Rat.inv in
theorem line_uses_truncation_witness :
    (FootfallCounter.update_counts (FootfallCounter.init (1/2)) [] 10
        = List.foldl (processObs (pyInt ((10 : ℚ) * (1/2)))) (FootfallCounter.init (1/2)) [])
    ∧ countingLineY 10 (1/2) = ⌊(10 : ℚ) * (1/2)⌋
    ∧ (runFrames (FootfallCounter.init (1/2)) []).line_position
        = (FootfallCounter.init (1/2)).line_position :=
  ⟨(line_uses_truncation 10 (1/2) (FootfallCounter.init (1/2)) [] []).1 rfl,
    (line_uses_truncation 10 (1/2) (FootfallCounter.init (1/2)) [] []).2.1 (by decide),
    (line_uses_truncation 10 (1/2) (FootfallCounter.init (1/2)) [] []).2.2⟩

unseal Rat.mul Rat.inv in
/-- Counterexample to claim C8: construction with fraction 2 (outside
`(0,1)`) does not fail — it yields the ordinary initial state — and the
core then proceeds to compute a line coordinate: 200 for a 100-pixel-high
frame (outside the frame), and 0 for a frame height of 0. -/
theorem init_accepts_bad_fraction :
    (FootfallCounter.init 2).line_position = 2
    ∧ (FootfallCounter.init 2).entry_count = 0
    ∧ (FootfallCounter.init 2).exit_count = 0
    ∧ (FootfallCounter.init 2).counted_ids = ∅
    ∧ countingLineY 100 2 = 200
    ∧ (100 : Int) < countingLineY 100 2
    ∧ countingLineY 0 (1/2) = 0 := by
  decide

/-- Claim C8, amended: the constructor performs no validation at all —
for every fraction it succeeds and produces the same-shaped initial state
— and no configuration-time error exists: with a fraction `f ≥ 1` and a
positive frame height the computed line coordinate is at least the frame
height (outside the frame's pixel rows), and a frame height of 0 yields
line coordinate 0, in both cases computed normally rather than rejected. -/
theorem init_no_validation (f : ℚ) (fh : Nat) :
    (FootfallCounter.init f).line_position = f
    ∧ (FootfallCounter.init f).entry_count = 0
    ∧ (FootfallCounter.init f).exit_count = 0
    ∧ (FootfallCounter.init f).counted_ids = ∅
    ∧ (∀ t, (FootfallCounter.init f).track_history t = [])
    ∧ (1 ≤ f → 1 ≤ fh → (fh : Int) ≤ countingLineY fh f)
    ∧ countingLineY 0 f = 0 := by
  refine ⟨rfl, rfl, rfl, rfl, fun _ => rfl, ?_, ?_⟩
  · intro hf _
    unfold countingLineY pyInt
    have hq : (0 : ℚ) ≤ (fh : ℚ) * f :=
      mul_nonneg (Nat.cast_nonneg fh) (le_trans zero_le_one hf)
    rw [if_pos hq, Int.le_floor]
    push_cast
    calc (fh : ℚ) = (fh : ℚ) * 1 := by ring
    _ ≤ (fh : ℚ) * f := mul_le_mul_of_nonneg_left hf (Nat.cast_nonneg fh)
  · unfold countingLineY
    norm_num [pyInt]

theorem init_no_validation_witness :
    (5 : Int) ≤ countingLineY 5 2 :=
  (init_no_validation 2 5).2.2.2.2.2.1 (by norm_num) (by norm_num)

unseal Rat.mul Rat.inv in
/-- Counterexample to claim C9: with tracks 1, 2, 3 each having one prior
position above the line, a frame whose raw records are a crossing
observation for track 1, a malformed record for track 2 (missing centroid)
and a crossing observation for track 3 raises `KeyError` and aborts the
loop: track 1 is counted (`entry_count = 1`) but track 3's observation is
neither recorded nor counted, contradicting the claim that every other
observation of the frame is still processed. -/
theorem malformed_counterexample :
    (update_counts_raw
        (runFrames (FootfallCounter.init (1/2))
          [(100, [⟨1, (0, 40)⟩, ⟨2, (0, 40)⟩, ⟨3, (0, 40)⟩])])
        [⟨some 1, some (0, 60)⟩, ⟨some 2, none⟩, ⟨some 3, some (0, 60)⟩] 100).2
      = some PyError.keyError
    ∧ (update_counts_raw
        (runFrames (FootfallCounter.init (1/2))
          [(100, [⟨1, (0, 40)⟩, ⟨2, (0, 40)⟩, ⟨3, (0, 40)⟩])])
        [⟨some 1, some (0, 60)⟩, ⟨some 2, none⟩, ⟨some 3, some (0, 60)⟩] 100).1.entry_count = 1
    ∧ (update_counts_raw
        (runFrames (FootfallCounter.init (1/2))
          [(100, [⟨1, (0, 40)⟩, ⟨2, (0, 40)⟩, ⟨3, (0, 40)⟩])])
        [⟨some 1, some (0, 60)⟩, ⟨some 2, none⟩, ⟨some 3, some (0, 60)⟩] 100).1.track_history 3
      = [(0, 40)]
    ∧ 3 ∉ (update_counts_raw
        (runFrames (FootfallCounter.init (1/2))
          [(100, [⟨1, (0, 40)⟩, ⟨2, (0, 40)⟩, ⟨3, (0, 40)⟩])])
        [⟨some 1, some (0, 60)⟩, ⟨some 2, none⟩, ⟨some 3, some (0, 60)⟩] 100).1.counted_ids := by
  decide

theorem updateRawGo_split :
    ∀ (goods : List RawDetection) (lineY : Int) (s : CounterState)
      (bad : RawDetection) (rest : List RawDetection),
      (∀ d ∈ goods, d.track_id.isSome ∧ d.centroid.isSome) →
      (bad.track_id = none ∨ bad.centroid = none) →
      updateRawGo lineY s (goods ++ bad :: rest)
          = ((updateRawGo lineY s goods).1, some PyError.keyError)
      ∧ (updateRawGo lineY s goods).2 = none
      ∧ (updateRawGo lineY s goods).1
          = List.foldl (processObs lineY) s
              (goods.map fun d => ⟨d.track_id.getD 0, d.centroid.getD (0, 0)⟩) := by
  intro goods
  induction goods with
  | nil =>
    intro lineY s bad rest _ hb
    refine ⟨?_, rfl, rfl⟩
    show updateRawGo lineY s (bad :: rest) = (s, some PyError.keyError)
    rcases hb with h1 | h2
    · simp [updateRawGo, h1]
    · rcases htid : bad.track_id with _ | t
      · simp [updateRawGo, htid]
      · simp [updateRawGo, htid, h2]
  | cons g goods ih =>
    intro lineY s bad rest hg hb
    obtain ⟨ht, hc⟩ := hg g (List.mem_cons_self g goods)
    obtain ⟨t, htEq⟩ := Option.isSome_iff_exists.mp ht
    obtain ⟨c, hcEq⟩ := Option.isSome_iff_exists.mp hc
    have hgoods : ∀ d ∈ goods, d.track_id.isSome ∧ d.centroid.isSome :=
      fun d hd => hg d (List.mem_cons_of_mem g hd)
    have step : ∀ (tail : List RawDetection),
        updateRawGo lineY s (g :: tail)
          = updateRawGo lineY (processObs lineY s ⟨t, c⟩) tail := by
      intro tail
      simp [updateRawGo, htEq, hcEq]
    refine ⟨?_, ?_, ?_⟩
    · rw [List.cons_append, step (goods ++ bad :: rest), step goods]
      exact (ih lineY _ bad rest hgoods hb).1
    · rw [step goods]
      exact (ih lineY _ bad rest hgoods hb).2.1
    · rw [step goods, (ih lineY _ bad rest hgoods hb).2.2, List.map_cons, List.foldl_cons,
        htEq, hcEq]
      simp only [Option.getD_some]

/-- Claim C9, amended: a malformed observation record (missing track id or
centroid) fails the frame from that record onward, not just itself: the
records before it are processed exactly as well-formed detections and their
effects persist on the object, the loop then raises `KeyError`, and the
malformed record together with every record after it in the same frame is
not processed at all. -/
theorem malformed_aborts_frame (s : CounterState) (goods : List RawDetection)
    (bad : RawDetection) (rest : List RawDetection) (fh : Nat)
    (hg : ∀ d ∈ goods, d.track_id.isSome ∧ d.centroid.isSome)
    (hb : bad.track_id = none ∨ bad.centroid = none) :
    update_counts_raw s (goods ++ bad :: rest) fh
        = ((update_counts_raw s goods fh).1, some PyError.keyError)
    ∧ (update_counts_raw s goods fh).2 = none
    ∧ (update_counts_raw s goods fh).1
        = FootfallCounter.update_counts s
            (goods.map fun d => ⟨d.track_id.getD 0, d.centroid.getD (0, 0)⟩) fh :=
  updateRawGo_split goods (countingLineY fh s.line_position) s bad rest hg hb

theorem malformed_aborts_frame_witness :
    update_counts_raw (FootfallCounter.init (1/2))
        [⟨some 1, some (0, 40)⟩, ⟨some 2, none⟩] 100
      = ((update_counts_raw (FootfallCounter.init (1/2)) [⟨some 1, some (0, 40)⟩] 100).1,
          some PyError.keyError)
    ∧ (update_counts_raw (FootfallCounter.init (1/2)) [⟨some 1, some (0, 40)⟩] 100).2 = none
    ∧ (update_counts_raw (FootfallCounter.init (1/2)) [⟨some 1, some (0, 40)⟩] 100).1
        = FootfallCounter.update_counts (FootfallCounter.init (1/2))
            (([⟨some 1, some (0, 40)⟩] : List RawDetection).map
              fun d => ⟨d.track_id.getD 0, d.centroid.getD (0, 0)⟩) 100 :=
  malformed_aborts_frame (FootfallCounter.init (1/2)) [⟨some 1, some (0, 40)⟩]
    ⟨some 2, none⟩ [] 100 (by decide) (Or.inr rfl)
